import Mathlib

/-!
Shallow embedding of the isolation-proof API (src/isolation_proof/api.py).

The repository ships only api.py under src/isolation_proof; the modules it imports
(safefs.py, core.py, aggregate.py, agents.py) are absent. Definitions for those
modules are modelled from the design document and carry a doc comment saying so;
everything else is translated from api.py directly.

Modelling conventions:
  - JSON values parsed by json.loads become the inductive `JValue`; a `JValue.obj`
    models a Python dict after parsing, so its keys are unique.
  - A filesystem path is a list of path components (`PathC`), already canonical.
  - The per-namespace append-only log entries.jsonl is an `Option (List JValue)`:
    `none` means the file does not exist; `some lines` is its content as parsed
    lines. Writing a serialized entry and later parsing it back is the identity at
    this level, since both sides use the same canonical JSON encoding.
  - HTTP responses become the structures `PostResponse` / `GetResponse`, keeping
    the status code and the fields of the JSON body that api.py emits.
-/

namespace IsolationProof

/-- JSON values as produced by json.loads; `obj` models a parsed Python dict
(unique keys). -/
inductive JValue where
  | null
  | bool (b : Bool)
  | num (n : Int)
  | str (s : String)
  | arr (xs : List JValue)
  | obj (fields : List (String × JValue))

/-- Python dict `.get k`: the value bound to key `k`, if any (keys are unique in a
parsed dict, so first match suffices). -/
def jGet (fields : List (String × JValue)) (k : String) : Option JValue :=
  match fields with
  | [] => none
  | (k2, v) :: rest => if k2 = k then some v else jGet rest k

/-- Python str.startswith on character lists: when `pre` starts the string,
return the remainder. -/
def dropScheme : List Char → List Char → Option (List Char)
  | [], rest => some rest
  | _ :: _, [] => none
  | p :: ps, c :: cs => if p = c then dropScheme ps cs else none

/-- Python str.strip on character lists: drop whitespace from both ends. -/
def stripChars (l : List Char) : List Char :=
  ((l.dropWhile Char.isWhitespace).reverse.dropWhile Char.isWhitespace).reverse

/-- Model of `_bearer_token` (api.py lines 39-46): require the "Bearer " scheme, take the
rest of the header, strip surrounding whitespace, and treat an empty result as
absent. -/
def bearerToken (auth : Option String) : Option String :=
  match auth with
  | none => none
  | some a =>
    match dropScheme "Bearer ".toList a.toList with
    | none => none
    | some rest =>
      let t := stripChars rest
      if t.isEmpty then none else some (String.mk t)

/-- The three situations in which api.py raises AuthError. -/
inductive AuthErr where
  | missing
  | invalid
  | wrongNamespace
deriving DecidableEq

/-- The message attached to each AuthError in api.py (lines 89, 94, 176). -/
def AuthErr.message : AuthErr → String
  | .missing => "Missing Authorization header with a Bearer token"
  | .invalid => "Invalid token"
  | .wrongNamespace => "Token not authorized for this agent namespace"

/-- The linear scan over the token table in `ApiState.authenticate` (lines 91-93):
the first principal whose stored secret equals the presented token, by exact
string equality. -/
def findPrincipal (tokens : List (String × String)) (tok : String) : Option String :=
  match tokens with
  | [] => none
  | (p, t) :: rest => if t = tok then some p else findPrincipal rest tok

/-- Model of `ApiState.authenticate` (api.py lines 85-94). -/
def authenticate (tokens : List (String × String)) (auth : Option String) :
    Except AuthErr String :=
  match bearerToken auth with
  | none => .error .missing
  | some tok =>
    match findPrincipal tokens tok with
    | some p => .ok p
    | none => .error .invalid

/-- A canonical filesystem path, as its list of components. -/
abbrev PathC := List String

/-- Test that `a` is an ancestor of `p` or equal to it: `a` is a component-wise path
prefix of `p`. -/
def underOrEq (a p : PathC) : Bool := a.isPrefixOf p

/-- The sandbox configuration carried by safefs.SandboxFS, as constructed in
api.py. -/
structure SandboxFS where
  allowed_root : PathC
  deny_roots : List PathC
deriving DecidableEq

/-- Model of `ApiState.agent_fs` (api.py lines 96-102): allowed root is
data_dir/agents/agent_id; deny roots are the core directory and the agents root
itself. `coreDir` stands for `self.config.core_path.parent`. -/
def agent_fs (dataDir coreDir : PathC) (agentId : String) : SandboxFS :=
  { allowed_root := dataDir ++ ["agents", agentId]
  , deny_roots := [coreDir, dataDir ++ ["agents"]] }

/-- Modelled from the spec: `SandboxFS._ensure_write_allowed` lives in safefs.py,
which is not under src/. Section 4.1 requires the candidate path to equal or
descend from `allowed_root` and to avoid every deny root. api.py configures the
agents root itself as a deny root while the acceptance scenarios require writes
inside a namespace to succeed, and the design notes call the sibling deny
best-effort; accordingly a deny root that contains `allowed_root` is not applied
to paths inside `allowed_root`. -/
def ensureWriteAllowed (fs : SandboxFS) (p : PathC) : Bool :=
  underOrEq fs.allowed_root p &&
    fs.deny_roots.all (fun d => !(underOrEq d p) || underOrEq d fs.allowed_root)

/-- The response of `Handler.do_POST`: status code plus the JSON body fields
api.py emits (error kind, message, ok flag, written count). -/
structure PostResponse where
  status : Nat
  error : Option String
  message : Option String
  ok : Option Bool
  written : Option Nat
deriving DecidableEq

def postSuccess (n : Nat) : PostResponse :=
  { status := 201, error := none, message := none, ok := some true, written := some n }

def postAuthErr (e : AuthErr) : PostResponse :=
  { status := 401, error := some "unauthorized", message := some e.message
  , ok := none, written := none }

def postBadRequest (msg : String) : PostResponse :=
  { status := 400, error := some "bad_request", message := some msg
  , ok := none, written := none }

def postNotFound : PostResponse :=
  { status := 404, error := some "not_found", message := none, ok := none, written := none }

/-- The per-entry check inside the write loop of do_POST (api.py lines 203-208):
the entry must be a dict, and its `projection` key must hold a dict. Returns the
message of the exception raised, or `none` when the entry passes. No further
check on the projection content is performed. -/
def entryCheck (e : JValue) : Option String :=
  match e with
  | .obj fields =>
    match jGet fields "projection" with
    | some (.obj _) => none
    | _ => some "Entry missing dict projection"
  | _ => some "Each entry must be a JSON object"

/-- The write loop of do_POST (api.py lines 201-209): entries are checked and
written one at a time into the open file; when a check fails the loop stops, and
every line already written stays in the file. Returns the file content after the
loop and the failure message, if any. -/
def appendLoop (written : List JValue) (entries : List JValue) :
    List JValue × Option String :=
  match entries with
  | [] => (written, none)
  | e :: rest =>
    match entryCheck e with
    | none => appendLoop (written ++ [e]) rest
    | some msg => (written, some msg)

/-- Accumulate the maximal runs of characters between slashes; `cur` holds the
current run, reversed. -/
def partsAux : List Char → List Char → List String
  | [], cur => if cur.isEmpty then [] else [String.mk cur.reverse]
  | c :: rest, cur =>
    if c = '/' then
      if cur.isEmpty then partsAux rest []
      else String.mk cur.reverse :: partsAux rest []
    else partsAux rest (c :: cur)

/-- URL path splitting in do_POST (api.py line 171): the nonempty components of
the path (split on "/" keeping only nonempty parts); the rstrip of trailing
slashes is subsumed by dropping empty parts. -/
def splitParts (path : String) : List String :=
  partsAux path.toList []

/-- Model of `Handler.do_POST` (api.py lines 163-221). The `file` argument is the content
of the target namespace log data_dir/agents/agent_id/entries.jsonl (`none` when
the file does not exist); the result pairs the boundary response with the file
afterwards. The body is the already-parsed JSON payload (`none` when the request
carries no body); a JSON `null` body is Python None and is treated as missing. -/
def do_POST (tokens : List (String × String)) (dataDir coreDir : PathC)
    (auth : Option String) (path : String) (body : Option JValue)
    (file : Option (List JValue)) : PostResponse × Option (List JValue) :=
  match authenticate tokens auth with
  | .error e => (postAuthErr e, file)
  | .ok principal =>
    match splitParts path with
    | [a, b, agentId, d] =>
      if a = "v1" ∧ b = "agents" ∧ d = "entries" then
        if principal ≠ agentId then (postAuthErr .wrongNamespace, file)
        else
          match body with
          | none => (postBadRequest "Missing JSON body", file)
          | some .null => (postBadRequest "Missing JSON body", file)
          | some bv =>
            match (match bv with
                   | .arr xs => some xs
                   | .obj fields => some [JValue.obj fields]
                   | _ => none : Option (List JValue)) with
            | none => (postBadRequest "Body must be object or list", file)
            | some entries =>
              let fs := agent_fs dataDir coreDir agentId
              let outPath := fs.allowed_root ++ ["entries.jsonl"]
              if ensureWriteAllowed fs outPath then
                let opened := file.getD []
                let res := appendLoop opened entries
                match res.2 with
                | none => (postSuccess entries.length, some res.1)
                | some msg => (postBadRequest msg, some res.1)
              else (postBadRequest "write outside sandbox", file)
      else (postNotFound, file)
    | _ => (postNotFound, file)

/-- Modelled from the spec: `CoreDataset.verify_immutable` lives in core.py,
which is not under src/. It recomputes the content hash over the corpus file
bytes and compares it with the expected hash read from the companion file;
`hashFn` abstracts the cryptographic hash. -/
def verify_immutable (hashFn : String → String) (content expected : String) : Bool :=
  hashFn content = expected

/-- Split file content into its lines at newline characters. -/
def splitLinesAux : List Char → List Char → List String
  | [], cur => [String.mk cur.reverse]
  | c :: rest, cur =>
    if c = '\n' then String.mk cur.reverse :: splitLinesAux rest []
    else splitLinesAux rest (c :: cur)

/-- Modelled from the spec: `CoreDataset.load` lives in core.py, which is not
under src/. It parses the corpus file as one structured record per line, skipping
blank lines; `parseRec` abstracts the per-line record parser. -/
def corpusLoad (parseRec : String → JValue) (content : String) : List JValue :=
  ((splitLinesAux content.toList []).filter
      (fun l => !(stripChars l.toList).isEmpty)).map parseRec

/-- The verify-then-load sequence run by the /v1/core/records route (api.py
lines 134-139): the records are produced only after the hash check passes; a
mismatch is an IntegrityViolation and nothing is loaded. -/
def readCorpus (hashFn : String → String) (parseRec : String → JValue)
    (content expected : String) : Except String (List JValue) :=
  if verify_immutable hashFn content expected then
    .ok (corpusLoad parseRec content)
  else .error "IntegrityViolation"

/-- Modelled from the spec: `Aggregator.aggregate` lives in aggregate.py, which
is not under src/. It reads each discovered log in traversal order, parses each
complete line as an entry tagged with its namespace, and concatenates; the logs
here carry already-parsed entries, so the malformed-line skip branch is vacuous
in the model. -/
def aggregate (logs : List (String × List JValue)) : List (String × JValue) :=
  (logs.map (fun nsl => nsl.2.map (fun e => (nsl.1, e)))).flatten

/-- The JSON body of a `Handler.do_GET` response, one constructor per route. -/
inductive GetBody where
  | health (ok : Bool)
  | hash (expected actual : String) (isMatch : Bool)
  | records (recs : List JValue)
  | aggregated (entries : List (String × JValue)) (count : Nat)
  | err (kind : String) (message : String)

structure GetResponse where
  status : Nat
  body : GetBody

/-- Model of `Handler.do_GET` (api.py lines 113-161). Authentication runs before any
route dispatch, including the health route. `corpusContent` / `expectedHash`
stand for the on-disk corpus file and companion hash file; `agentLogs` is the
parsed content of every discovered namespace log, in traversal order. An
IntegrityViolation raised by the records route is caught by the generic handler
and surfaces as a 500 server_error. -/
def do_GET (tokens : List (String × String)) (auth : Option String) (path : String)
    (hashFn : String → String) (parseRec : String → JValue)
    (corpusContent expectedHash : String)
    (agentLogs : List (String × List JValue)) : GetResponse :=
  match authenticate tokens auth with
  | .error e => { status := 401, body := .err "unauthorized" e.message }
  | .ok _ =>
    match splitParts path with
    | ["v1", "health"] => { status := 200, body := .health true }
    | ["v1", "core", "hash"] =>
      let actual := hashFn corpusContent
      { status := 200
      , body := .hash expectedHash actual (decide (expectedHash = actual)) }
    | ["v1", "core", "records"] =>
      match readCorpus hashFn parseRec corpusContent expectedHash with
      | .ok recs => { status := 200, body := .records recs }
      | .error msg => { status := 500, body := .err "server_error" msg }
    | ["v1", "aggregate"] =>
      let out := aggregate agentLogs
      { status := 200, body := .aggregated out out.length }
    | _ => { status := 404, body := .err "not_found" "" }

/-! Helper lemmas shared by the claim theorems. -/

lemma appendLoop_all_valid (acc : List JValue) (es : List JValue)
    (h : ∀ e ∈ es, entryCheck e = none) :
    appendLoop acc es = (acc ++ es, none) := by
  induction es generalizing acc with
  | nil => simp [appendLoop]
  | cons e rest ih =>
    have he : entryCheck e = none := h e (by simp)
    have hrest : ∀ x ∈ rest, entryCheck x = none := fun x hx => h x (by simp [hx])
    simp [appendLoop, he, ih (acc ++ [e]) hrest]

lemma appendLoop_stops (acc good rest : List JValue) (bad : JValue) (msg : String)
    (hg : ∀ e ∈ good, entryCheck e = none) (hb : entryCheck bad = some msg) :
    appendLoop acc (good ++ bad :: rest) = (acc ++ good, some msg) := by
  induction good generalizing acc with
  | nil => simp [appendLoop, hb]
  | cons e tail ih =>
    have he : entryCheck e = none := hg e (by simp)
    have htail : ∀ x ∈ tail, entryCheck x = none := fun x hx => hg x (by simp [hx])
    simp [appendLoop, he, ih (acc ++ [e]) htail]

lemma ensureWriteAllowed_std (dataDir coreDir : PathC) (aid : String)
    (hcore : underOrEq coreDir (dataDir ++ ["agents", aid, "entries.jsonl"]) = false) :
    ensureWriteAllowed (agent_fs dataDir coreDir aid)
      ((agent_fs dataDir coreDir aid).allowed_root ++ ["entries.jsonl"]) = true := by
  have h1 : underOrEq (dataDir ++ ["agents", aid])
      ((dataDir ++ ["agents", aid]) ++ ["entries.jsonl"]) = true := by
    simp only [underOrEq, List.isPrefixOf_iff_prefix]
    exact List.prefix_append _ _
  have h2 : underOrEq (dataDir ++ ["agents"]) (dataDir ++ ["agents", aid]) = true := by
    simp only [underOrEq, List.isPrefixOf_iff_prefix]
    exact ⟨[aid], by simp⟩
  have h3 : underOrEq coreDir ((dataDir ++ ["agents", aid]) ++ ["entries.jsonl"]) = false := by
    rw [show (dataDir ++ ["agents", aid]) ++ ["entries.jsonl"]
        = dataDir ++ ["agents", aid, "entries.jsonl"] by simp]
    exact hcore
  simp [ensureWriteAllowed, agent_fs] at h1 h2 h3 ⊢
  simp [h1, h2, h3]

lemma filter_tag_of_ne (n X : String) (h : n ≠ X) (l : List JValue) :
    (l.map (fun e => (n, e))).filter (fun p => p.1 == X) = [] := by
  induction l with
  | nil => simp
  | cons e rest ih => simp [h, ih]

lemma filter_tag_self (X : String) (l : List JValue) :
    (l.map (fun e => (X, e))).filter (fun p => p.1 == X) = l.map (fun e => (X, e)) := by
  induction l with
  | nil => simp
  | cons e rest ih => simp [ih]

lemma aggregate_filter_none (X : String) (logs : List (String × List JValue)) :
    (∀ p ∈ logs, p.1 ≠ X) →
    (aggregate logs).filter (fun p => p.1 == X) = [] := by
  induction logs with
  | nil => intro _; simp [aggregate]
  | cons nl rest ih =>
    intro h
    have hhd : nl.1 ≠ X := h nl (by simp)
    have htl : ∀ p ∈ rest, p.1 ≠ X := fun p hp => h p (by simp [hp])
    have h4 := ih htl
    simp [aggregate, List.filter_append, filter_tag_of_ne nl.1 X hhd nl.2] at h4 ⊢
    exact h4

lemma aggregate_filter_tag (X : String) (src : List JValue)
    (logsR : List (String × List JValue)) (hR : ∀ p ∈ logsR, p.1 ≠ X) :
    ∀ logsL : List (String × List JValue), (∀ p ∈ logsL, p.1 ≠ X) →
    (aggregate (logsL ++ (X, src) :: logsR)).filter (fun p => p.1 == X)
      = src.map (fun e => (X, e)) := by
  intro logsL
  induction logsL with
  | nil =>
    intro _
    have h5 := aggregate_filter_none X logsR hR
    simp [aggregate, List.filter_append, filter_tag_self X src] at h5 ⊢
    exact h5
  | cons nl rest ih =>
    intro hL
    have hhd : nl.1 ≠ X := hL nl (by simp)
    have htl : ∀ p ∈ rest, p.1 ≠ X := fun p hp => hL p (by simp [hp])
    have h4 := ih htl
    simp [aggregate, List.filter_append, filter_tag_of_ne nl.1 X hhd nl.2] at h4 ⊢
    exact h4

/-! Claim theorems. -/

/-- C1 counterexample: a valid principal ("alpha") targeting another namespace
("beta") is rejected, but the rejection carried to the boundary is the same
401 / "unauthorized" response class that invalid credentials produce, not a
distinct Forbidden (403 / "forbidden") outcome; the file is untouched. -/
theorem post_mismatch_not_forbidden_cex :
    (do_POST [("alpha", "tk")] ["d"] ["c"] (some "Bearer tk")
        "/v1/agents/beta/entries" (some (.obj [("projection", .obj [])])) none).1.status = 401 ∧
    (do_POST [("alpha", "tk")] ["d"] ["c"] (some "Bearer tk")
        "/v1/agents/beta/entries" (some (.obj [("projection", .obj [])])) none).1.error
      = some "unauthorized" ∧
    (do_POST [("alpha", "tk")] ["d"] ["c"] (some "Bearer tk")
        "/v1/agents/beta/entries" (some (.obj [("projection", .obj [])])) none).1.status ≠ 403 ∧
    (do_POST [("alpha", "tk")] ["d"] ["c"] (some "Bearer tk")
        "/v1/agents/beta/entries" (some (.obj [("projection", .obj [])])) none).1.error
      ≠ some "forbidden" ∧
    (do_POST [("alpha", "tk")] ["d"] ["c"] (some "Bearer tk")
        "/v1/agents/beta/entries" (some (.obj [("projection", .obj [])])) none).2 = none :=
  ⟨rfl, rfl, by decide, by decide, rfl⟩

/-- C1 (amended): for every authenticated submit-observations request whose
principal differs from the target namespace id, do_POST rejects before touching
the filesystem — the namespace log is returned unchanged (so no file is created
or modified) — and the rejection is the AuthError response for a
namespace-mismatched token (401 / "unauthorized", not a distinct Forbidden). -/
theorem post_namespace_mismatch_rejected_before_write
    (tokens : List (String × String)) (dataDir coreDir : PathC)
    (auth : Option String) (path : String) (aid principal : String)
    (body : Option JValue) (file : Option (List JValue))
    (hauth : authenticate tokens auth = Except.ok principal)
    (hpath : splitParts path = ["v1", "agents", aid, "entries"])
    (hne : principal ≠ aid) :
    do_POST tokens dataDir coreDir auth path body file
      = (postAuthErr .wrongNamespace, file) := by
  unfold do_POST
  rw [hauth, hpath]
  simp [hne]

theorem post_namespace_mismatch_rejected_before_write_witness :
    do_POST [("alpha", "tk")] ["d2"] ["c2"] (some "Bearer tk")
        "/v1/agents/gamma/entries" none (some [.null])
      = (postAuthErr .wrongNamespace, some [.null]) :=
  post_namespace_mismatch_rejected_before_write _ _ _ _ _ _ _ _ _
    (by rfl) (by rfl) (by decide)

/-- C3 (the code accepts an unrecognized projection state): the write loop of
do_POST checks only that `projection` is a dict; an entry whose projection
carries the unrecognized state "S99" passes the check, is appended to the log,
and the request reports 201 with written = 1 instead of rejecting the entry. -/
theorem unrecognized_state_accepted_bug :
    entryCheck (.obj [("projection", .obj [("state", .str "S99")])]) = none ∧
    do_POST [("alpha", "tk")] ["data"] ["core"] (some "Bearer tk")
        "/v1/agents/alpha/entries"
        (some (.arr [.obj [("projection", .obj [("state", .str "S99")])]])) none
      = (postSuccess 1, some [.obj [("projection", .obj [("state", .str "S99")])]]) :=
  ⟨rfl, rfl⟩

/-- C4 counterexample: the SandboxFS built for agent "alpha" under data dir
["data"] lists ["data", "agents"] among its deny roots, yet its allowed root
["data", "agents", "alpha"] is a strict descendant of that deny root, so the
allowed root is not disjoint from every deny root — and the configuration is
still constructed and used, not rejected. -/
theorem agent_fs_allowed_inside_deny_cex :
    (["data", "agents"] : PathC) ∈ (agent_fs ["data"] ["corp"] "alpha").deny_roots ∧
    underOrEq ["data", "agents"] (agent_fs ["data"] ["corp"] "alpha").allowed_root = true ∧
    (agent_fs ["data"] ["corp"] "alpha").allowed_root ≠ (["data", "agents"] : PathC) := by
  decide

/-- C4 (amended): every SandboxFS the system constructs carries the agents root
itself as a deny root, and its allowed root is a strict descendant of that deny
root, so the disjointness invariant fails for every configured namespace;
`agent_fs` performs no validation and never rejects a configuration. -/
theorem agent_fs_deny_structure (dataDir coreDir : PathC) (aid : String) :
    (agent_fs dataDir coreDir aid).deny_roots = [coreDir, dataDir ++ ["agents"]] ∧
    underOrEq (dataDir ++ ["agents"]) (agent_fs dataDir coreDir aid).allowed_root = true ∧
    (agent_fs dataDir coreDir aid).allowed_root ≠ dataDir ++ ["agents"] := by
  refine ⟨rfl, ?_, ?_⟩
  · simp only [agent_fs, underOrEq, List.isPrefixOf_iff_prefix]
    exact ⟨[aid], by simp⟩
  · intro h
    have := congrArg List.length h
    simp [agent_fs] at this

/-- C8 counterexample: a health-check request with no credential at all is not a
success — do_GET authenticates before routing, so /v1/health without an
Authorization header returns 401 unauthorized rather than the liveness flag. -/
theorem health_requires_auth_cex :
    do_GET [] none "/v1/health" (fun _ => "") (fun _ => .null) "" "" []
      = { status := 401, body := .err "unauthorized" AuthErr.missing.message } ∧
    (401 : Nat) ≠ 200 :=
  ⟨rfl, by decide⟩

/-- C8 (amended): the health check requires a valid credential like every other
route; for every request that authenticates successfully, /v1/health succeeds
and returns the liveness flag, with no other failure kind. -/
theorem health_ok_when_authenticated
    (tokens : List (String × String)) (auth : Option String)
    (hashFn : String → String) (parseRec : String → JValue)
    (corpusContent expectedHash : String)
    (agentLogs : List (String × List JValue)) (p : String)
    (hauth : authenticate tokens auth = Except.ok p) :
    do_GET tokens auth "/v1/health" hashFn parseRec corpusContent expectedHash agentLogs
      = { status := 200, body := .health true } := by
  unfold do_GET
  rw [hauth]
  rfl

theorem health_ok_when_authenticated_witness :
    do_GET [("agent_alpha", "t0")] (some "Bearer t0") "/v1/health"
        (fun _ => "") (fun _ => .null) "" "" []
      = { status := 200, body := .health true } :=
  health_ok_when_authenticated _ _ _ _ _ _ _ _ (by rfl)

/-- C2 counterexample: a two-entry batch whose second entry fails validation is
not rejected atomically — the request fails with 400, yet the first entry has
already been appended, so the log contents after the failed request differ from
the contents before it. -/
theorem batch_partial_write_cex :
    do_POST [("alpha", "tk2")] ["data"] ["core"] (some "Bearer tk2")
        "/v1/agents/alpha/entries"
        (some (.arr [.obj [("projection", .obj [])], .obj [("projection", .str "oops")]]))
        (some [])
      = (postBadRequest "Entry missing dict projection",
         some [.obj [("projection", .obj [])]]) ∧
    some [JValue.obj [("projection", JValue.obj [])]] ≠ (some [] : Option (List JValue)) :=
  ⟨rfl, by simp⟩

/-- C2 (amended): validation and writing are interleaved per entry, so a batch
is rejected only from its first invalid entry onward: for a batch
good ++ bad :: rest with every entry of `good` valid and `bad` invalid, the
request fails with 400 and the log afterwards holds the old contents followed by
exactly the entries of `good` — the batch is not atomic and bytes are written
before the failure. -/
theorem batch_first_invalid_cuts_batch
    (tokens : List (String × String)) (dataDir coreDir : PathC)
    (auth : Option String) (path : String) (aid : String)
    (good rest : List JValue) (bad : JValue) (msg : String) (old : List JValue)
    (hauth : authenticate tokens auth = Except.ok aid)
    (hpath : splitParts path = ["v1", "agents", aid, "entries"])
    (hcore : underOrEq coreDir (dataDir ++ ["agents", aid, "entries.jsonl"]) = false)
    (hgood : ∀ e ∈ good, entryCheck e = none)
    (hbad : entryCheck bad = some msg) :
    do_POST tokens dataDir coreDir auth path (some (.arr (good ++ bad :: rest))) (some old)
      = (postBadRequest msg, some (old ++ good)) := by
  have hfsOK := ensureWriteAllowed_std dataDir coreDir aid hcore
  have hloop := appendLoop_stops old good rest bad msg hgood hbad
  unfold do_POST
  rw [hauth, hpath]
  simp [hfsOK, hloop]

theorem batch_first_invalid_cuts_batch_witness :
    do_POST [("w2", "tkw")] ["dw"] ["cw"] (some "Bearer tkw") "/v1/agents/w2/entries"
        (some (.arr [.obj [("projection", .obj [])], .str "notdict"]))
        (some [])
      = (postBadRequest "Each entry must be a JSON object",
         some [.obj [("projection", .obj [])]]) :=
  batch_first_invalid_cuts_batch _ _ _ _ _ _
    [.obj [("projection", .obj [])]] [] (.str "notdict") _ []
    (by rfl) (by rfl) (by rfl)
    (by intro e he; rw [List.mem_singleton] at he; subst he; rfl) rfl

/-- C5: the read-corpus route runs the verify-then-load sequence; when the
recomputed hash of the corpus bytes differs from the expected hash the request
fails as an IntegrityViolation and no records are produced, and when they match
it succeeds with exactly the records `corpusLoad` parses out of those bytes —
the same record sequence on every load of the same bytes, since the result is a
function of the file content alone. -/
theorem read_corpus_integrity_gate
    (tokens : List (String × String)) (auth : Option String)
    (hashFn : String → String) (parseRec : String → JValue)
    (corpusContent expectedHash : String)
    (agentLogs : List (String × List JValue)) (p : String)
    (hauth : authenticate tokens auth = Except.ok p) :
    (hashFn corpusContent ≠ expectedHash →
      do_GET tokens auth "/v1/core/records" hashFn parseRec corpusContent expectedHash
          agentLogs
        = { status := 500, body := .err "server_error" "IntegrityViolation" }) ∧
    (hashFn corpusContent = expectedHash →
      do_GET tokens auth "/v1/core/records" hashFn parseRec corpusContent expectedHash
          agentLogs
        = { status := 200, body := .records (corpusLoad parseRec corpusContent) }) := by
  constructor
  · intro hne
    have hrc : readCorpus hashFn parseRec corpusContent expectedHash
        = .error "IntegrityViolation" := by
      simp [readCorpus, verify_immutable, hne]
    unfold do_GET
    rw [hauth, show splitParts "/v1/core/records" = ["v1", "core", "records"] from rfl, hrc]
    rfl
  · intro heq
    have hrc : readCorpus hashFn parseRec corpusContent expectedHash
        = .ok (corpusLoad parseRec corpusContent) := by
      simp [readCorpus, verify_immutable, heq]
    unfold do_GET
    rw [hauth, show splitParts "/v1/core/records" = ["v1", "core", "records"] from rfl, hrc]
    rfl

theorem read_corpus_integrity_gate_witness :
    do_GET [("r", "tr")] (some "Bearer tr") "/v1/core/records"
        (fun _ => "H") (fun _ => .null) "body" "X" []
      = { status := 500, body := .err "server_error" "IntegrityViolation" } ∧
    do_GET [("r", "tr")] (some "Bearer tr") "/v1/core/records"
        (fun _ => "H") (fun _ => .null) "body" "H" []
      = { status := 200, body := .records (corpusLoad (fun _ => .null) "body") } :=
  ⟨(read_corpus_integrity_gate _ _ _ _ _ _ _ _ (by rfl)).1 (by decide),
   (read_corpus_integrity_gate _ _ _ _ _ _ _ _ (by rfl)).2 rfl⟩

/-- C6 counterexample: the failure surfaced for a valid credential targeting the
wrong namespace has the same response class as the one surfaced for an invalid
credential — both carry status 401 and error kind "unauthorized" — so it is not
a distinct Forbidden kind. -/
theorem mismatch_same_error_class_cex :
    (do_POST [("gamma", "tg")] ["dd"] ["cc"] (some "Bearer tg")
        "/v1/agents/delta/entries" none none).1.error
      = (do_POST [("gamma", "zz")] ["dd"] ["cc"] (some "Bearer tg")
        "/v1/agents/gamma/entries" none none).1.error ∧
    (do_POST [("gamma", "tg")] ["dd"] ["cc"] (some "Bearer tg")
        "/v1/agents/delta/entries" none none).1.status
      = (do_POST [("gamma", "zz")] ["dd"] ["cc"] (some "Bearer tg")
        "/v1/agents/gamma/entries" none none).1.status ∧
    (do_POST [("gamma", "tg")] ["dd"] ["cc"] (some "Bearer tg")
        "/v1/agents/delta/entries" none none).1.error = some "unauthorized" :=
  ⟨rfl, rfl, rfl⟩

/-- C6 (amended): a valid credential targeting a namespace not matching its
identity is surfaced in the same failure class as a missing or invalid
credential — status 401, error kind "unauthorized" — and is distinguished from
those only by its message string. -/
theorem mismatch_distinct_message_only
    (tokens : List (String × String)) (dataDir coreDir : PathC)
    (auth : Option String) (path : String) (aid principal : String)
    (body : Option JValue) (file : Option (List JValue))
    (hauth : authenticate tokens auth = Except.ok principal)
    (hpath : splitParts path = ["v1", "agents", aid, "entries"])
    (hne : principal ≠ aid) :
    (do_POST tokens dataDir coreDir auth path body file).1 = postAuthErr .wrongNamespace ∧
    (postAuthErr .wrongNamespace).status = (postAuthErr .invalid).status ∧
    (postAuthErr .wrongNamespace).error = (postAuthErr .invalid).error ∧
    (postAuthErr .wrongNamespace).message ≠ (postAuthErr .invalid).message ∧
    (postAuthErr .wrongNamespace).message ≠ (postAuthErr .missing).message := by
  refine ⟨?_, rfl, rfl, by decide, by decide⟩
  unfold do_POST
  rw [hauth, hpath]
  simp [hne]

theorem mismatch_distinct_message_only_witness :
    (do_POST [("p9", "t9")] ["d9"] ["c9"] (some "Bearer t9")
        "/v1/agents/q9/entries" none none).1 = postAuthErr .wrongNamespace ∧
    (postAuthErr .wrongNamespace).status = (postAuthErr .invalid).status ∧
    (postAuthErr .wrongNamespace).error = (postAuthErr .invalid).error ∧
    (postAuthErr .wrongNamespace).message ≠ (postAuthErr .invalid).message ∧
    (postAuthErr .wrongNamespace).message ≠ (postAuthErr .missing).message :=
  mismatch_distinct_message_only _ _ _ _ _ _ _ _ _ (by rfl) (by rfl) (by decide)

/-- C7: a batch of N valid entries submitted to namespace X succeeds with
written = N, the namespace log afterwards is the old log followed by the batch
in submission order, and the aggregated view over all namespaces contains the
X-tagged entries exactly as that log, so each submitted entry appears there
exactly once, in order. -/
theorem submit_roundtrip_aggregate
    (tokens : List (String × String)) (dataDir coreDir : PathC)
    (auth : Option String) (path : String) (X : String)
    (es old : List JValue) (logsL logsR : List (String × List JValue))
    (hauth : authenticate tokens auth = Except.ok X)
    (hpath : splitParts path = ["v1", "agents", X, "entries"])
    (hcore : underOrEq coreDir (dataDir ++ ["agents", X, "entries.jsonl"]) = false)
    (hval : ∀ e ∈ es, entryCheck e = none)
    (hL : ∀ p ∈ logsL, p.1 ≠ X) (hR : ∀ p ∈ logsR, p.1 ≠ X) :
    do_POST tokens dataDir coreDir auth path (some (.arr es)) (some old)
      = (postSuccess es.length, some (old ++ es)) ∧
    (aggregate (logsL ++ (X, old ++ es) :: logsR)).filter (fun p => p.1 == X)
      = (old ++ es).map (fun e => (X, e)) := by
  constructor
  · have hfsOK := ensureWriteAllowed_std dataDir coreDir X hcore
    have hloop := appendLoop_all_valid old es hval
    unfold do_POST
    rw [hauth, hpath]
    simp [hfsOK, hloop]
  · exact aggregate_filter_tag X (old ++ es) logsR hR logsL hL

theorem submit_roundtrip_aggregate_witness :
    do_POST [("ax", "tax")] ["da"] ["ca"] (some "Bearer tax") "/v1/agents/ax/entries"
        (some (.arr [.obj [("projection", .obj [("state", .str "S3")])]])) (some [])
      = (postSuccess 1, some [.obj [("projection", .obj [("state", .str "S3")])]]) ∧
    (aggregate ([("beta", [JValue.null])]
        ++ ("ax", [] ++ [JValue.obj [("projection", .obj [("state", .str "S3")])]]) :: [])).filter
          (fun p => p.1 == "ax")
      = ([] ++ [JValue.obj [("projection", .obj [("state", .str "S3")])]]).map
          (fun e => ("ax", e)) :=
  submit_roundtrip_aggregate _ _ _ _ _ _
    [.obj [("projection", .obj [("state", .str "S3")])]] [] [("beta", [JValue.null])] []
    (by rfl) (by rfl) (by rfl)
    (by intro e he; rw [List.mem_singleton] at he; subst he; rfl)
    (by intro q hq; rw [List.mem_singleton] at hq; subst hq; decide)
    (by intro q hq; exact absurd hq (List.not_mem_nil q))

/-! Lemmas about the credential scan, for the authentication claim. -/

lemma findPrincipal_mem (tok p : String) :
    ∀ tokens : List (String × String),
    findPrincipal tokens tok = some p → (p, tok) ∈ tokens := by
  intro tokens
  induction tokens with
  | nil => intro h; simp [findPrincipal] at h
  | cons pr rest ih =>
    intro h
    simp only [findPrincipal] at h
    by_cases he : pr.2 = tok
    · rw [if_pos he] at h
      have hp : pr.1 = p := Option.some.inj h
      have hpr : (p, tok) = pr := by
        rw [← hp, ← he]
      rw [hpr]
      exact List.mem_cons_self _ _
    · rw [if_neg he] at h
      exact List.mem_cons_of_mem _ (ih h)

lemma findPrincipal_of_mem (tok p : String) :
    ∀ tokens : List (String × String), (tokens.map Prod.snd).Nodup →
    (p, tok) ∈ tokens → findPrincipal tokens tok = some p := by
  intro tokens
  induction tokens with
  | nil => intro _ h; simp at h
  | cons pr rest ih =>
    intro hnd hm
    simp only [List.map_cons, List.nodup_cons] at hnd
    obtain ⟨hnotin, hnd2⟩ := hnd
    rcases List.mem_cons.mp hm with heq | htail
    · subst heq
      simp [findPrincipal]
    · have hsnd : tok ∈ rest.map Prod.snd := List.mem_map.mpr ⟨(p, tok), htail, rfl⟩
      have hne : pr.2 ≠ tok := fun hc => hnotin (hc ▸ hsnd)
      simp only [findPrincipal, if_neg hne]
      exact ih hnd2 htail

lemma findPrincipal_none (tok : String) :
    ∀ tokens : List (String × String), (∀ pr ∈ tokens, pr.2 ≠ tok) →
    findPrincipal tokens tok = none := by
  intro tokens
  induction tokens with
  | nil => intro _; rfl
  | cons pr rest ih =>
    intro h
    have hne : pr.2 ≠ tok := h pr (List.mem_cons_self _ _)
    simp only [findPrincipal, if_neg hne]
    exact ih (fun q hq => h q (List.mem_cons_of_mem _ hq))

/-- C9: with a well-formed Bearer presentation of token `tok` and a credential
table binding secrets 1:1, authentication succeeds yielding principal p iff the
presented token equals, by exact value, the secret stored for p; and whenever
the token differs from every stored secret — in particular when it is a proper
prefix or other partial match of one — authentication fails as Unauthorized
(invalid token). -/
theorem authenticate_exact_match (tokens : List (String × String)) (tok : String)
    (htok : bearerToken (some ("Bearer " ++ tok)) = some tok)
    (hinj : (tokens.map Prod.snd).Nodup) :
    (∀ p, authenticate tokens (some ("Bearer " ++ tok)) = Except.ok p ↔ (p, tok) ∈ tokens) ∧
    ((∀ pr ∈ tokens, pr.2 ≠ tok) →
      authenticate tokens (some ("Bearer " ++ tok)) = Except.error AuthErr.invalid) := by
  constructor
  · intro p
    constructor
    · intro h
      simp only [authenticate, htok] at h
      cases hf : findPrincipal tokens tok with
      | none => rw [hf] at h; exact absurd h (by simp)
      | some q =>
        rw [hf] at h
        have hq : q = p := by
          simp only [Except.ok.injEq] at h
          exact h
        rw [hq] at hf
        exact findPrincipal_mem tok p tokens hf
    · intro hm
      simp only [authenticate, htok, findPrincipal_of_mem tok p tokens hinj hm]
  · intro hall
    simp only [authenticate, htok, findPrincipal_none tok tokens hall]

theorem authenticate_exact_match_witness :
    (authenticate [("a1", "s1"), ("b1", "s2")] (some ("Bearer " ++ "s2"))
        = Except.ok "b1" ↔ ("b1", "s2") ∈ [("a1", "s1"), ("b1", "s2")]) ∧
    authenticate [("a1", "s1"), ("b1", "s2")] (some ("Bearer " ++ "zz"))
      = Except.error AuthErr.invalid :=
  ⟨(authenticate_exact_match [("a1", "s1"), ("b1", "s2")] "s2" (by rfl) (by decide)).1 "b1",
   (authenticate_exact_match [("a1", "s1"), ("b1", "s2")] "zz" (by rfl) (by decide)).2
     (by decide)⟩

/-- C10: at the submit-observations route a body that is a single JSON object is
handled exactly like the one-element list holding that object — the two requests
produce identical responses and identical log contents — and on success the
response reports written = 1 with that one entry appended to the log. -/
theorem single_object_as_singleton_batch
    (tokens : List (String × String)) (dataDir coreDir : PathC)
    (auth : Option String) (path : String) (aid : String)
    (fields : List (String × JValue)) (file : Option (List JValue))
    (hauth : authenticate tokens auth = Except.ok aid)
    (hpath : splitParts path = ["v1", "agents", aid, "entries"])
    (hcore : underOrEq coreDir (dataDir ++ ["agents", aid, "entries.jsonl"]) = false)
    (hproj : entryCheck (.obj fields) = none) :
    do_POST tokens dataDir coreDir auth path (some (.obj fields)) file
      = do_POST tokens dataDir coreDir auth path (some (.arr [.obj fields])) file ∧
    do_POST tokens dataDir coreDir auth path (some (.obj fields)) file
      = (postSuccess 1, some (file.getD [] ++ [.obj fields])) := by
  have hfsOK := ensureWriteAllowed_std dataDir coreDir aid hcore
  have hloop := appendLoop_all_valid (file.getD []) [.obj fields]
    (by intro e he; rw [List.mem_singleton] at he; subst he; exact hproj)
  constructor
  · unfold do_POST
    rw [hauth, hpath]
  · unfold do_POST
    rw [hauth, hpath]
    simp [hfsOK, hloop]

theorem single_object_as_singleton_batch_witness :
    do_POST [("sa", "ts")] ["ds"] ["cs"] (some "Bearer ts") "/v1/agents/sa/entries"
        (some (.obj [("projection", .obj [])])) none
      = do_POST [("sa", "ts")] ["ds"] ["cs"] (some "Bearer ts") "/v1/agents/sa/entries"
        (some (.arr [.obj [("projection", .obj [])]])) none ∧
    do_POST [("sa", "ts")] ["ds"] ["cs"] (some "Bearer ts") "/v1/agents/sa/entries"
        (some (.obj [("projection", .obj [])])) none
      = (postSuccess 1, some [JValue.obj [("projection", JValue.obj [])]]) :=
  single_object_as_singleton_batch _ _ _ _ _ _ _ _
    (by rfl) (by rfl) (by rfl) (by rfl)

end IsolationProof
